import Mathlib

/-!
Verification of the MAJ memory graph and retrieval engine
(`src/graph_manager.py`, `src/judge.py`, `src/models.py`).

The graph/vector store (Neo4j) is an external collaborator: its per-kind
vector indexes are modelled as oracle functions passed to each operation, and
the persisted node/edge state is modelled explicitly.  Floating-point scores
and embedding components are modelled as rationals (only order comparisons
occur in the code under verification).
-/

/-- A vector embedding as stored on a node: a list of floats, modelled as
rationals. -/
abbrev Embedding := List ℚ

/-- Python truthiness of an optional list-valued field (`if semantic.embedding:`):
`None` and the empty list are falsy. -/
def pyTruthy : Option Embedding → Bool
  | none => false
  | some l => !l.isEmpty

/-- Python `x or y` where `x` is an optional float (`threshold or self.policy_threshold`,
graph_manager.py line 55): `None` and `0.0` are falsy and select `y`. -/
def pyOrFloat (x : Option ℚ) (y : ℚ) : ℚ :=
  match x with
  | none => y
  | some v => if v = 0 then y else v

/-- Policy entity (models.py, class `Policy`): id, description, optional embedding. -/
structure Policy where
  id : String
  description : String
  embedding : Option Embedding
deriving DecidableEq

/-- Modelled from the spec: the `Semantic` entity (spec section 3) is imported by
graph_manager.py and judge.py from models.py but its class is missing there; per the
spec's data model it carries id, name (short label), description, and an optional
embedding. -/
structure Semantic where
  id : String
  name : String
  description : String
  embedding : Option Embedding
deriving DecidableEq

/-- Row returned by `find_similar_policies` (graph_manager.py lines 139-147):
`node.id`, `node.description`, `score`. -/
structure PolicyHit where
  id : String
  description : String
  score : ℚ
deriving DecidableEq

/-- Row returned by `find_similar_semantics` (graph_manager.py lines 256-265):
`node.id`, `node.name`, `node.description`, `score`. -/
structure SemanticHit where
  id : String
  name : String
  description : String
  score : ℚ
deriving DecidableEq

/-- Node state of the graph store as touched by the dedup/upsert engine, together
with the per-instance policy threshold set in `GraphManager.__init__`. -/
structure GMState where
  policy_threshold : ℚ
  policies : List Policy
  semantics : List Semantic
deriving DecidableEq

/-- Result of a get-or-create call: the returned `(id, is_new)` pair, the store
state after the call, and how many similarity-index round trips the call issued. -/
structure UpsertOut where
  id : String
  created : Bool
  state : GMState
  simQueries : Nat
deriving DecidableEq

/-- Threshold resolution in `GraphManager.__init__` (graph_manager.py line 27):
`policy_threshold or float(os.getenv("POLICY_THRESHOLD", DEFAULT_POLICY_THRESHOLD))`
with `DEFAULT_POLICY_THRESHOLD = 0.9`; `env` is the parsed environment variable when
it is set. -/
def initPolicyThreshold (arg : Option ℚ) (env : Option ℚ) : ℚ :=
  pyOrFloat arg (env.getD (9 / 10))

/-- `GraphManager.get_or_create_policy` (graph_manager.py lines 49-68).  The
similarity index is the external store, passed as the oracle `q`
(`find_similar_policies` forwards the embedding and `top_k` to it unchanged); the
Python code passes `policy.embedding` through to the query even when it is `None`,
and resolves the threshold with `threshold or self.policy_threshold`. -/
def get_or_create_policy (q : Option Embedding → Nat → List PolicyHit)
    (st : GMState) (policy : Policy) (threshold : Option ℚ) : UpsertOut :=
  let t := pyOrFloat threshold st.policy_threshold
  match (q policy.embedding 1).head? with
  | some hit =>
    if t ≤ hit.score then
      { id := hit.id, created := false, state := st, simQueries := 1 }
    else
      { id := policy.id, created := true,
        state := { st with policies := st.policies ++ [policy] }, simQueries := 1 }
  | none =>
    { id := policy.id, created := true,
      state := { st with policies := st.policies ++ [policy] }, simQueries := 1 }

/-- `GraphManager.get_or_create_semantic` (graph_manager.py lines 276-290).  Unlike
the policy variant it guards the similarity check with `if semantic.embedding:`
(Python truthiness), and its threshold is a plain default argument (0.85 when the
caller omits it), not an `or`-fallback. -/
def get_or_create_semantic (q : Option Embedding → Nat → List SemanticHit)
    (st : GMState) (semantic : Semantic) (threshold : ℚ) : UpsertOut :=
  if pyTruthy semantic.embedding then
    match (q semantic.embedding 1).head? with
    | some hit =>
      if threshold ≤ hit.score then
        { id := hit.id, created := false, state := st, simQueries := 1 }
      else
        { id := semantic.id, created := true,
          state := { st with semantics := st.semantics ++ [semantic] }, simQueries := 1 }
    | none =>
      { id := semantic.id, created := true,
        state := { st with semantics := st.semantics ++ [semantic] }, simQueries := 1 }
  else
    { id := semantic.id, created := true,
      state := { st with semantics := st.semantics ++ [semantic] }, simQueries := 0 }

/-- Insert into a list sorted by the boolean comparison `le` (used to realize the
store's `ORDER BY` clauses as an executable sort). -/
def insertLe (le : α → α → Bool) (a : α) : List α → List α
  | [] => [a]
  | b :: bs => if le a b then a :: b :: bs else b :: insertLe le a bs

/-- Insertion sort by the boolean comparison `le`: the store's `ORDER BY` returns
the grouped rows in some order satisfying the comparison. -/
def sortLe (le : α → α → Bool) : List α → List α
  | [] => []
  | a :: as => insertLe le a (sortLe le as)

/-- Row returned by the attempt similarity index (graph_manager.py lines 149-158
and 171-176): `node.id`, `node.agent_output`, `node.is_successful`,
`node.reasoning`, `score`. -/
structure AttemptHit where
  id : String
  agent_output : String
  is_successful : Bool
  reasoning : String
  score : ℚ
deriving DecidableEq

/-- `GraphManager.find_contrastive_attempts` (graph_manager.py lines 160-183):
over-fetch `top_k * 4` candidates from the attempt index, partition by the
`is_successful` flag, and take the first `top_k` of each partition in the order
the index returned them. -/
def find_contrastive_attempts (q : Embedding → Nat → List AttemptHit)
    (embedding : Embedding) (top_k : Nat) : List AttemptHit × List AttemptHit :=
  let attempts := q embedding (top_k * 4)
  ((attempts.filter (fun a => a.is_successful)).take top_k,
   (attempts.filter (fun a => !a.is_successful)).take top_k)

/-- Row returned by the issue similarity index (graph_manager.py lines 185-193 and
321-324): `node.id`, `node.description`, `score`. -/
structure IssueHit where
  id : String
  description : String
  score : ℚ
deriving DecidableEq

/-- Semantic node as persisted in the store (`id`, `name`, `description`; the
embedding plays no role in the traversal queries). -/
structure SemNode where
  id : String
  name : String
  description : String
deriving DecidableEq

/-- Issue node as persisted in the store (`id`, `description`). -/
structure IssueNode where
  id : String
  description : String
deriving DecidableEq

/-- Node and relationship state of the graph store traversed by the aggregation
queries: issue nodes, semantic nodes, and the CAUSES and ABSTRACTS_TO edge lists
(an edge is a pair of endpoint ids). -/
structure Graph where
  issues : List IssueNode
  semanticNodes : List SemNode
  causes : List (String × String)
  abstracts_to : List (String × String)
deriving DecidableEq

/-- Output row of `find_semantic_patterns` (graph_manager.py lines 327-328):
`s.id`, `s.name`, `s.description`, `frequency`, `avg_similarity`. -/
structure PatternRow where
  id : String
  name : String
  description : String
  frequency : Nat
  avg_similarity : ℚ
deriving DecidableEq

/-- Comparison realizing `ORDER BY frequency DESC, avg_similarity DESC`
(graph_manager.py line 329). -/
def patternLE (a b : PatternRow) : Bool :=
  decide (b.frequency < a.frequency) ||
    (a.frequency == b.frequency && decide (b.avg_similarity ≤ a.avg_similarity))

/-- Rows produced by `MATCH (issue)-[:ABSTRACTS_TO]->(s:Semantic)` over the
surviving issue candidates (graph_manager.py line 325): one row per
(candidate, outgoing ABSTRACTS_TO edge) pair whose target semantic node exists. -/
def patternRows (g : Graph) (surv : List IssueHit) : List (IssueHit × SemNode) :=
  surv.flatMap (fun c =>
    (g.abstracts_to.filter (fun e => e.1 == c.id)).filterMap
      (fun e => (g.semanticNodes.find? (fun s => s.id == e.2)).map (fun s => (c, s))))

/-- The `WHERE score >= 0.85` clause (graph_manager.py line 324): candidates below
the floor are dropped before the traversal. -/
def survIssues (cands : List IssueHit) : List IssueHit :=
  cands.filter (fun c => decide ((85 : ℚ) / 100 ≤ c.score))

/-- The `WITH s, count(issue) as frequency, avg(score) as avg_similarity` grouping
(graph_manager.py line 326) for one grouping key `s`: the aggregates range over
the traversal rows whose semantic node is `s`. -/
def groupPattern (rows : List (IssueHit × SemNode)) (s : SemNode) : PatternRow :=
  let rs := rows.filter (fun r => decide (r.2 = s))
  { id := s.id, name := s.name, description := s.description,
    frequency := rs.length,
    avg_similarity := (rs.map (fun r => r.1.score)).sum / (rs.length : ℚ) }

/-- `GraphManager.find_semantic_patterns` (graph_manager.py lines 312-332): query
the issue index for `top_k * 3` candidates, keep those with `score >= 0.85`,
traverse ABSTRACTS_TO, group by semantic node with `frequency = count(issue)` and
`avg_similarity = avg(score)`, order by frequency then average descending, and
return the first `top_k` rows. -/
def find_semantic_patterns (q : Embedding → Nat → List IssueHit) (g : Graph)
    (embedding : Embedding) (top_k : Nat) : List PatternRow :=
  let rows := patternRows g (survIssues (q embedding (top_k * 3)))
  let grouped := ((rows.map (fun r => r.2)).dedup).map (groupPattern rows)
  (sortLe patternLE grouped).take top_k

/-- The surviving issue candidates that contribute to the semantic with id `sid`:
they passed the 0.85 floor and carry an ABSTRACTS_TO edge to that semantic. -/
def contributingIssues (q : Embedding → Nat → List IssueHit) (g : Graph)
    (v : Embedding) (k : Nat) (sid : String) : List IssueHit :=
  (survIssues (q v (k * 3))).filter (fun c => decide ((c.id, sid) ∈ g.abstracts_to))

/-- Output row of `get_semantics_for_attempts` (graph_manager.py lines 348-349):
`s.id`, `s.name`, `s.description`, `issue_count`, `sample_issues`. -/
structure ModeBRow where
  id : String
  name : String
  description : String
  issue_count : Nat
  sample_issues : List String
deriving DecidableEq

/-- Comparison realizing `ORDER BY issue_count DESC` (graph_manager.py line 350). -/
def modeBLE (a b : ModeBRow) : Bool :=
  decide (b.issue_count ≤ a.issue_count)

/-- Rows produced by `MATCH (a:Attempt)-[:CAUSES]->(i:Issue)-[:ABSTRACTS_TO]->(s:Semantic)
WHERE a.id IN $attempt_ids` (graph_manager.py lines 345-346). -/
def modeBRows (g : Graph) (attempt_ids : List String) : List (IssueNode × SemNode) :=
  (g.causes.filter (fun e => attempt_ids.contains e.1)).flatMap (fun e =>
    (g.issues.filter (fun i => i.id == e.2)).flatMap (fun i =>
      (g.abstracts_to.filter (fun e2 => e2.1 == i.id)).filterMap (fun e2 =>
        (g.semanticNodes.find? (fun s => s.id == e2.2)).map (fun s => (i, s)))))

/-- `GraphManager.get_semantics_for_attempts` (graph_manager.py lines 334-352):
`if not attempt_ids: return []` short-circuits before any store session is opened;
otherwise one traversal query groups by semantic with
`issue_count = count(DISTINCT i)` and `sample_issues = collect(DISTINCT i.description)[0..3]`,
ordered by `issue_count` descending.  The second component counts graph-store
round trips issued by the call. -/
def get_semantics_for_attempts (g : Graph) (attempt_ids : List String) :
    List ModeBRow × Nat :=
  if attempt_ids.isEmpty then ([], 0)
  else
    let rows := modeBRows g attempt_ids
    let keys := (rows.map (fun r => r.2)).dedup
    let grouped := keys.map (fun s =>
      let di := ((rows.filter (fun r => decide (r.2 = s))).map (fun r => r.1)).dedup
      { id := s.id, name := s.name, description := s.description,
        issue_count := di.length,
        sample_issues := ((di.map (fun i => i.description)).dedup).take 3 })
    (sortLe modeBLE grouped, 1)

/-- Node and edge state of the full store as touched by the relationship-creation
calls (graph_manager.py lines 110-135 and 247-254): the ids of the persisted nodes
of each label, and the four edge lists. -/
structure Store where
  attempt_ids : List String
  policy_ids : List String
  issue_ids : List String
  fix_ids : List String
  semantic_ids : List String
  satisfies : List (String × String)
  causes : List (String × String)
  resolves : List (String × String)
  abstracts_to : List (String × String)
deriving DecidableEq

/-- Cypher `MATCH (x {id: a}) MATCH (y {id: b}) CREATE (x)-[...]->(y)` creates one
edge per pair of matched rows; when either MATCH finds nothing the CREATE clause
runs on zero rows and the statement completes without error. -/
def matchPairs (xs ys : List String) (a b : String) : List (String × String) :=
  (xs.filter (fun x => x == a)).flatMap (fun x =>
    (ys.filter (fun y => y == b)).map (fun y => (x, y)))

/-- `GraphManager.link_attempt_satisfies_policy` (graph_manager.py lines 110-117).
The Python function always returns normally (`session.run` of a MATCH/MATCH/CREATE
statement raises nothing when a MATCH is empty), so the model never produces
`Except.error`. -/
def link_attempt_satisfies_policy (st : Store) (attempt_id policy_id : String) :
    Except String Store :=
  Except.ok { st with
    satisfies := st.satisfies ++ matchPairs st.attempt_ids st.policy_ids attempt_id policy_id }

/-- `GraphManager.link_attempt_causes_issue` (graph_manager.py lines 119-126). -/
def link_attempt_causes_issue (st : Store) (attempt_id issue_id : String) :
    Except String Store :=
  Except.ok { st with
    causes := st.causes ++ matchPairs st.attempt_ids st.issue_ids attempt_id issue_id }

/-- `GraphManager.link_fix_resolves_issue` (graph_manager.py lines 128-135). -/
def link_fix_resolves_issue (st : Store) (fix_id issue_id : String) :
    Except String Store :=
  Except.ok { st with
    resolves := st.resolves ++ matchPairs st.fix_ids st.issue_ids fix_id issue_id }

/-- `GraphManager.link_issue_abstracts_to_semantic` (graph_manager.py lines 247-254). -/
def link_issue_abstracts_to_semantic (st : Store) (issue_id semantic_id : String) :
    Except String Store :=
  Except.ok { st with
    abstracts_to := st.abstracts_to ++ matchPairs st.issue_ids st.semantic_ids issue_id semantic_id }

/-- Structured output of the external classification call (judge.py lines 84-90;
the `SemanticClassification` schema described by `CLASSIFICATION_OUTPUT` in
prompts.py: `category_name`, `category_description`, `is_new_category`,
`reasoning`). -/
structure SemanticClassification where
  category_name : String
  category_description : String
  is_new_category : Bool
  reasoning : String
deriving DecidableEq

/-- Row of `get_all_semantics` (graph_manager.py lines 267-274): `id`, `name`,
`description`. -/
structure SemRow where
  id : String
  name : String
  description : String
deriving DecidableEq

/-- `classify_issue` (judge.py lines 66-114) after its two collaborator calls are
factored out: `existing` is what `get_all_semantics` returned, `decision` is the
parsed LLM classification, `freshId` is the uuid a newly constructed `Semantic`
receives, and `embed` is the embedder applied by `with_embedding`. -/
def classify_issue (existing : List SemRow) (decision : SemanticClassification)
    (freshId : String) (embed : String → Embedding) : Semantic × Bool :=
  if decision.is_new_category then
    ({ id := freshId, name := decision.category_name,
       description := decision.category_description,
       embedding := some (embed decision.category_description) }, true)
  else
    match existing.find? (fun s => s.name == decision.category_name) with
    | some s =>
      ({ id := s.id, name := s.name, description := s.description, embedding := none }, false)
    | none =>
      ({ id := freshId, name := decision.category_name,
         description := decision.category_description,
         embedding := some (embed decision.category_description) }, true)

/-- Field names declared by the `JudgeResult` pydantic model (models.py lines
111-115). -/
def judgeResultDeclaredFields : List String :=
  ["attempt", "issue_fix_pairs"]

/-- Field names declared by the `Attempt` pydantic model (models.py lines 49-64). -/
def attemptDeclaredFields : List String :=
  ["description", "id", "embedding"]

/-- Keys of the dict returned by `Attempt.to_neo4j_props` (models.py lines 59-64). -/
def attemptToNeo4jPropsKeys : List String :=
  ["id", "description", "embedding"]

/-- Fields `_build_result` reads off its `data: JudgeResult` argument (judge.py
lines 217-218 and 227). -/
def buildResultJudgeResultReads : List String :=
  ["is_successful", "reasoning", "issue_fix_pairs"]

/-- Keyword arguments `_build_result` passes to the `Attempt` constructor
(judge.py lines 215-219). -/
def buildResultAttemptKwargs : List String :=
  ["agent_output", "is_successful", "reasoning"]

/-- Query parameters referenced by the CREATE statement in
`GraphManager.create_attempt` (graph_manager.py lines 81-87). -/
def createAttemptQueryParams : List String :=
  ["id", "agent_output", "is_successful", "reasoning", "embedding"]

/-- Every name in `xs` also occurs in `ys`. -/
def namesSubset (xs ys : List String) : Bool :=
  xs.all (fun x => ys.contains x)

theorem mem_insertLe {le : α → α → Bool} {a b : α} {l : List α} :
    b ∈ insertLe le a l ↔ b = a ∨ b ∈ l := by
  induction l with
  | nil => simp [insertLe]
  | cons c cs ih =>
    by_cases h : le a c = true
    · simp [insertLe, h, List.mem_cons]
    · simp only [insertLe, h, if_false, Bool.false_eq_true, if_neg, List.mem_cons, ih]
      tauto

theorem pairwise_insertLe {le : α → α → Bool}
    (htrans : ∀ x y z, le x y = true → le y z = true → le x z = true)
    (htotal : ∀ x y, le x y = true ∨ le y x = true) {a : α} {l : List α}
    (h : l.Pairwise (fun x y => le x y = true)) :
    (insertLe le a l).Pairwise (fun x y => le x y = true) := by
  induction l with
  | nil => simp [insertLe]
  | cons b bs ih =>
    rcases List.pairwise_cons.mp h with ⟨hb, hbs⟩
    by_cases hab : le a b = true
    · simp only [insertLe, if_pos hab]
      refine List.pairwise_cons.mpr ⟨?_, h⟩
      intro x hx
      rcases List.mem_cons.mp hx with rfl | hx
      · exact hab
      · exact htrans a b x hab (hb x hx)
    · simp only [insertLe, if_neg hab]
      refine List.pairwise_cons.mpr ⟨?_, ih hbs⟩
      intro x hx
      rcases mem_insertLe.mp hx with rfl | hx
      · rcases htotal x b with hc | hc
        · exact absurd hc hab
        · exact hc
      · exact hb x hx

theorem pairwise_sortLe {le : α → α → Bool}
    (htrans : ∀ x y z, le x y = true → le y z = true → le x z = true)
    (htotal : ∀ x y, le x y = true ∨ le y x = true) (l : List α) :
    (sortLe le l).Pairwise (fun x y => le x y = true) := by
  induction l with
  | nil => simp [sortLe]
  | cons a as ih => exact pairwise_insertLe htrans htotal ih

theorem mem_sortLe {le : α → α → Bool} {a : α} {l : List α} :
    a ∈ sortLe le l ↔ a ∈ l := by
  induction l with
  | nil => simp [sortLe]
  | cons b bs ih => simp [sortLe, mem_insertLe, ih, List.mem_cons]

/-- C6: `get_semantics_for_attempts` applied to an empty list of attempt ids
returns the empty list, issues zero graph-store queries, and (being a total
function) raises no error. -/
theorem c6_get_semantics_for_attempts_empty (g : Graph) :
    get_semantics_for_attempts g [] = ([], 0) := rfl

/-- C10 is false of the code: `_build_result` reads `is_successful` and
`reasoning` off a `JudgeResult` that declares neither, passes `agent_output`,
`is_successful` and `reasoning` keywords to an `Attempt` model that declares none
of them, and `create_attempt` binds query parameters (`$agent_output`,
`$is_successful`, `$reasoning`) that `Attempt.to_neo4j_props` does not supply, so
the three containments the claim asserts all fail. -/
theorem c10_build_result_fields_mismatch :
    (namesSubset buildResultJudgeResultReads judgeResultDeclaredFields &&
     namesSubset buildResultAttemptKwargs attemptDeclaredFields &&
     namesSubset createAttemptQueryParams attemptToNeo4jPropsKeys) = false := by
  decide

/-- C3: `find_contrastive_attempts` returns at most `k` items per partition, every
item in the positive partition has `is_successful` true and every item in the
negative partition has it false, and each partition is a sublist of the similarity
index's return (its original order, never re-sorted). -/
theorem c3_find_contrastive_attempts_partition
    (q : Embedding → Nat → List AttemptHit) (v : Embedding) (k : Nat) :
    (find_contrastive_attempts q v k).1.length ≤ k ∧
    (find_contrastive_attempts q v k).2.length ≤ k ∧
    ((find_contrastive_attempts q v k).1.all (fun a => a.is_successful)) = true ∧
    ((find_contrastive_attempts q v k).2.all (fun a => !a.is_successful)) = true ∧
    (find_contrastive_attempts q v k).1.Sublist (q v (k * 4)) ∧
    (find_contrastive_attempts q v k).2.Sublist (q v (k * 4)) := by
  simp only [find_contrastive_attempts]
  refine ⟨?_, ?_, ?_, ?_, ?_, ?_⟩
  · rw [List.length_take]; exact min_le_left _ _
  · rw [List.length_take]; exact min_le_left _ _
  · rw [List.all_eq_true]
    intro a ha
    have ha2 : a ∈ List.filter (fun a => a.is_successful) (q v (k * 4)) :=
      List.mem_of_mem_take ha
    exact List.of_mem_filter ha2
  · rw [List.all_eq_true]
    intro a ha
    have ha2 : a ∈ List.filter (fun a => !a.is_successful) (q v (k * 4)) :=
      List.mem_of_mem_take ha
    have ha3 := List.of_mem_filter ha2
    exact ha3
  · exact (List.take_sublist _ _).trans (List.filter_sublist _)
  · exact (List.take_sublist _ _).trans (List.filter_sublist _)

/-- C8: when the external decision proposes a new category, `classify_issue`
returns `isNew = true` unconditionally; when it claims an existing category whose
name has no exact match among the supplied semantics, `classify_issue` falls back
to constructing a new `Semantic` and returns `isNew = true` instead of failing. -/
theorem c8_classify_issue_fallback (existing : List SemRow)
    (decision : SemanticClassification) (freshId : String)
    (embed : String → Embedding) :
    (decision.is_new_category = true →
      (classify_issue existing decision freshId embed).2 = true) ∧
    (decision.is_new_category = false →
      (∀ s ∈ existing, s.name ≠ decision.category_name) →
      (classify_issue existing decision freshId embed).2 = true) := by
  constructor
  · intro h
    simp [classify_issue, h]
  · intro h hnone
    have hfind : existing.find? (fun s => s.name == decision.category_name) = none := by
      rw [List.find?_eq_none]
      intro s hs
      simp [hnone s hs]
    simp [classify_issue, h, hfind]

theorem c8_classify_issue_fallback_witness :
    (classify_issue [{ id := "s1", name := "Race Condition", description := "d" }]
      { category_name := "SQL Injection Vulnerability", category_description := "d2",
        is_new_category := false, reasoning := "r" } "fresh-1" (fun _ => [])).2 = true :=
  (c8_classify_issue_fallback
    [{ id := "s1", name := "Race Condition", description := "d" }]
    { category_name := "SQL Injection Vulnerability", category_description := "d2",
      is_new_category := false, reasoning := "r" } "fresh-1" (fun _ => [])).2 rfl
    (by decide)

/-- C1: for a candidate with an embedding, get-or-create with the threshold in
force `t` (per-call else per-instance for policies; the call argument for
semantics) returns the top-1 hit's id with `created = false` and persists nothing
when that hit exists and scores at least `t`; otherwise it persists the candidate
and returns the candidate's own id with `created = true`. -/
theorem c1_get_or_create_dedup_dichotomy
    (qp : Option Embedding → Nat → List PolicyHit)
    (qs : Option Embedding → Nat → List SemanticHit)
    (stp sts : GMState) (p : Policy) (s : Semantic) (targ : Option ℚ) (ts : ℚ)
    (_hp : p.embedding.isSome = true) (hs : pyTruthy s.embedding = true) :
    ((∀ hit, (qp p.embedding 1).head? = some hit →
        pyOrFloat targ stp.policy_threshold ≤ hit.score →
        get_or_create_policy qp stp p targ =
          { id := hit.id, created := false, state := stp, simQueries := 1 }) ∧
     ((∀ hit, (qp p.embedding 1).head? = some hit →
         hit.score < pyOrFloat targ stp.policy_threshold) →
       get_or_create_policy qp stp p targ =
         { id := p.id, created := true,
           state := { stp with policies := stp.policies ++ [p] }, simQueries := 1 })) ∧
    ((∀ hit, (qs s.embedding 1).head? = some hit → ts ≤ hit.score →
        get_or_create_semantic qs sts s ts =
          { id := hit.id, created := false, state := sts, simQueries := 1 }) ∧
     ((∀ hit, (qs s.embedding 1).head? = some hit → hit.score < ts) →
       get_or_create_semantic qs sts s ts =
         { id := s.id, created := true,
           state := { sts with semantics := sts.semantics ++ [s] }, simQueries := 1 })) := by
  refine ⟨⟨?_, ?_⟩, ?_, ?_⟩
  · intro hit hq hts
    simp only [get_or_create_policy, hq, if_pos hts]
  · intro hlow
    simp only [get_or_create_policy]
    cases hq : (qp p.embedding 1).head? with
    | none => rfl
    | some hit => simp only [if_neg (not_le.mpr (hlow hit hq))]
  · intro hit hq hts
    simp only [get_or_create_semantic, hs, if_pos, hq, if_pos hts]
  · intro hlow
    simp only [get_or_create_semantic, hs, if_pos]
    cases hq : (qs s.embedding 1).head? with
    | none => rfl
    | some hit => simp only [if_neg (not_le.mpr (hlow hit hq))]

def c1wQ : Option Embedding → Nat → List PolicyHit :=
  fun _ _ => [{ id := "policy-1", description := "d", score := 95 / 100 }]

def c1wQS : Option Embedding → Nat → List SemanticHit :=
  fun _ _ => []

def c1wSt : GMState :=
  { policy_threshold := 9 / 10, policies := [], semantics := [] }

def c1wP : Policy :=
  { id := "policy-2", description := "d2", embedding := some [1] }

def c1wS : Semantic :=
  { id := "sem-1", name := "n", description := "d", embedding := some [1] }

theorem c1_get_or_create_dedup_dichotomy_witness :
    get_or_create_policy c1wQ c1wSt c1wP none =
      { id := "policy-1", created := false, state := c1wSt, simQueries := 1 } :=
  (c1_get_or_create_dedup_dichotomy c1wQ c1wQS c1wSt c1wSt c1wP c1wS none
      ((85 : ℚ) / 100) rfl rfl).1.1
    { id := "policy-1", description := "d", score := 95 / 100 } rfl
    (by norm_num [pyOrFloat, c1wSt])

def c2xQ : Option Embedding → Nat → List PolicyHit :=
  fun _ _ => [{ id := "policy-existing", description := "d", score := 1 }]

def c2xSt : GMState :=
  { policy_threshold := 9 / 10, policies := [], semantics := [] }

def c2xP : Policy :=
  { id := "policy-new", description := "validate emails", embedding := none }

/-- C2 is false of the code for `get_or_create_policy`: with a candidate whose
embedding is absent the function still issues the similarity query (one index
round trip, not zero), passes the absent embedding through, and dedups against the
answer — here returning the existing id with `created = false` and persisting
nothing, instead of skipping the check and creating unconditionally with
`created = true`. -/
theorem c2_counterexample :
    (get_or_create_policy c2xQ c2xSt c2xP none).simQueries = 1 ∧
    (get_or_create_policy c2xQ c2xSt c2xP none).created = false ∧
    (get_or_create_policy c2xQ c2xSt c2xP none).id = "policy-existing" ∧
    (get_or_create_policy c2xQ c2xSt c2xP none).state = c2xSt := by
  norm_num [get_or_create_policy, c2xQ, c2xSt, c2xP, pyOrFloat]

/-- C2 amended: only `get_or_create_semantic` skips the similarity check when the
candidate's embedding is absent (or empty), creating unconditionally with
`created = true` and zero similarity queries; `get_or_create_policy` always issues
the similarity query — with the absent embedding passed through — and reuses a
top-1 hit that meets the threshold in force, returning `created = false`. -/
theorem c2_embedding_absent_behaviour
    (qp : Option Embedding → Nat → List PolicyHit)
    (qs : Option Embedding → Nat → List SemanticHit)
    (stp sts : GMState) (p : Policy) (s : Semantic) (targ : Option ℚ) (ts : ℚ)
    (hp : p.embedding = none) (hs : pyTruthy s.embedding = false) :
    get_or_create_semantic qs sts s ts =
      { id := s.id, created := true,
        state := { sts with semantics := sts.semantics ++ [s] }, simQueries := 0 } ∧
    (get_or_create_policy qp stp p targ).simQueries = 1 ∧
    (∀ hit, (qp none 1).head? = some hit →
      pyOrFloat targ stp.policy_threshold ≤ hit.score →
      get_or_create_policy qp stp p targ =
        { id := hit.id, created := false, state := stp, simQueries := 1 }) := by
  refine ⟨?_, ?_, ?_⟩
  · simp [get_or_create_semantic, hs]
  · simp only [get_or_create_policy]
    cases hq : (qp p.embedding 1).head? with
    | none => rfl
    | some hit =>
      by_cases hts : pyOrFloat targ stp.policy_threshold ≤ hit.score
      · simp only [if_pos hts]
      · simp only [if_neg hts]
  · intro hit hq hts
    simp only [get_or_create_policy, hp, hq, if_pos hts]

def c2wQS : Option Embedding → Nat → List SemanticHit :=
  fun _ _ => [{ id := "sem-0", name := "n", description := "d", score := 1 }]

def c2wS : Semantic :=
  { id := "sem-new", name := "n2", description := "d2", embedding := none }

theorem c2_embedding_absent_behaviour_witness :
    get_or_create_semantic c2wQS c2xSt c2wS ((85 : ℚ) / 100) =
      { id := c2wS.id, created := true,
        state := { c2xSt with semantics := c2xSt.semantics ++ [c2wS] },
        simQueries := 0 } :=
  (c2_embedding_absent_behaviour c2xQ c2wQS c2xSt c2xSt c2xP c2wS none
    ((85 : ℚ) / 100) rfl rfl).1

def c9xQ : Option Embedding → Nat → List PolicyHit :=
  fun _ _ => [{ id := "policy-existing", description := "d", score := 1 / 2 }]

def c9xSt : GMState :=
  { policy_threshold := 9 / 10, policies := [], semantics := [] }

def c9xP : Policy :=
  { id := "policy-new", description := "d", embedding := some [1] }

/-- C9 is false of the code at the explicitly supplied per-call threshold 0.0:
the top-1 hit scores 1/2, which is at least 0, so the claim requires the existing
id with `created = false`; but `threshold or self.policy_threshold` treats 0.0 as
falsy, the instance threshold 9/10 is used instead, and the candidate is created
with `created = true`. -/
theorem c9_counterexample :
    ((c9xQ c9xP.embedding 1).head?.map (fun h => h.score) = some ((1 : ℚ) / 2)) ∧
    ((0 : ℚ) ≤ 1 / 2) ∧
    (get_or_create_policy c9xQ c9xSt c9xP (some 0)).created = true ∧
    (get_or_create_policy c9xQ c9xSt c9xP (some 0)).id = "policy-new" := by
  norm_num [get_or_create_policy, c9xQ, c9xSt, c9xP, pyOrFloat]

/-- C9 amended: a supplied per-call threshold is used for the dedup comparison
whenever it is nonzero (per-call overrides per-instance, which overrides the
environment value, which defaults to 0.9); a supplied 0.0 is falsy under the
Python `or` chain and falls back to the per-instance threshold, so the claim's
"including t = 0.0" fails. -/
theorem c9_threshold_precedence
    (q : Option Embedding → Nat → List PolicyHit) (st : GMState) (p : Policy)
    (t a e : ℚ) (env : Option ℚ) (ht : t ≠ 0) (ha : a ≠ 0) :
    pyOrFloat (some t) st.policy_threshold = t ∧
    (∀ hit, (q p.embedding 1).head? = some hit → t ≤ hit.score →
      (get_or_create_policy q st p (some t)).created = false ∧
      (get_or_create_policy q st p (some t)).id = hit.id ∧
      (get_or_create_policy q st p (some t)).state = st) ∧
    (∀ hit, (q p.embedding 1).head? = some hit → hit.score < t →
      (get_or_create_policy q st p (some t)).created = true ∧
      (get_or_create_policy q st p (some t)).id = p.id) ∧
    initPolicyThreshold (some a) env = a ∧
    initPolicyThreshold none (some e) = e ∧
    initPolicyThreshold none none = 9 / 10 := by
  have hpy : pyOrFloat (some t) st.policy_threshold = t := by
    simp [pyOrFloat, ht]
  refine ⟨hpy, ?_, ?_, ?_, ?_, ?_⟩
  · intro hit hq hts
    simp only [get_or_create_policy, hq, hpy, if_pos hts]
    exact ⟨trivial, trivial, trivial⟩
  · intro hit hq hts
    simp only [get_or_create_policy, hq, hpy, if_neg (not_le.mpr hts)]
    exact ⟨trivial, trivial⟩
  · simp [initPolicyThreshold, pyOrFloat, ha]
  · simp [initPolicyThreshold, pyOrFloat]
  · simp [initPolicyThreshold, pyOrFloat]

theorem c9_threshold_precedence_witness :
    (get_or_create_policy c9xQ c9xSt c9xP (some (1 / 2))).created = false ∧
    (get_or_create_policy c9xQ c9xSt c9xP (some (1 / 2))).id = "policy-existing" ∧
    (get_or_create_policy c9xQ c9xSt c9xP (some (1 / 2))).state = c9xSt :=
  (c9_threshold_precedence c9xQ c9xSt c9xP (1 / 2) 1 1 none (by norm_num)
      (by norm_num)).2.1
    { id := "policy-existing", description := "d", score := 1 / 2 } rfl le_rfl

theorem matchPairs_mem {xs ys : List String} {a b : String} {e : String × String}
    (h : e ∈ matchPairs xs ys a b) : e.1 ∈ xs ∧ e.2 ∈ ys := by
  unfold matchPairs at h
  simp only [List.mem_flatMap, List.mem_map, List.mem_filter] at h
  obtain ⟨x, ⟨hx, _⟩, y, ⟨hy, _⟩, hxy⟩ := h
  rw [← hxy]
  exact ⟨hx, hy⟩

theorem matchPairs_eq_nil {xs ys : List String} {a b : String}
    (h : a ∉ xs ∨ b ∉ ys) : matchPairs xs ys a b = [] := by
  unfold matchPairs
  rcases h with h | h
  · have hx : xs.filter (fun x => x == a) = [] := by
      rw [List.filter_eq_nil_iff]
      intro x hx
      simp only [beq_iff_eq]
      rintro rfl
      exact h hx
    rw [hx]
    rfl
  · have hy : ys.filter (fun y => y == b) = [] := by
      rw [List.filter_eq_nil_iff]
      intro y hy
      simp only [beq_iff_eq]
      rintro rfl
      exact h hy
    simp [hy]

def c7xSt : Store :=
  { attempt_ids := ["a1"], policy_ids := [], issue_ids := [], fix_ids := [],
    semantic_ids := [], satisfies := [], causes := [], resolves := [],
    abstracts_to := [] }

/-- C7 is false of the code on the reporting half: with the attempt present but
the referenced policy id absent from the store, `link_attempt_satisfies_policy`
creates no edge (the empty MATCH gives the CREATE zero rows) yet completes as an
ordinary success with the store unchanged — no NotFound outcome reaches the
caller, so the failure is silent. -/
theorem c7_counterexample :
    link_attempt_satisfies_policy c7xSt "a1" "p1" = Except.ok c7xSt := by
  simp [link_attempt_satisfies_policy, matchPairs, c7xSt]

/-- C7 amended: each relationship-creation call never creates a dangling edge
(every edge present after the call was already present or has both endpoint ids in
the store, and a call referencing a missing endpoint leaves the store unchanged),
but the missing-endpoint case is silent: the call always returns a success value
and reports no NotFound outcome. -/
theorem c7_link_no_dangling_but_silent (st : Store) (aid pid iid fid sid : String) :
    (∃ st2, link_attempt_satisfies_policy st aid pid = Except.ok st2 ∧
      (∀ e ∈ st2.satisfies, e ∈ st.satisfies ∨ (e.1 ∈ st.attempt_ids ∧ e.2 ∈ st.policy_ids)) ∧
      ((aid ∉ st.attempt_ids ∨ pid ∉ st.policy_ids) → st2 = st)) ∧
    (∃ st2, link_attempt_causes_issue st aid iid = Except.ok st2 ∧
      (∀ e ∈ st2.causes, e ∈ st.causes ∨ (e.1 ∈ st.attempt_ids ∧ e.2 ∈ st.issue_ids)) ∧
      ((aid ∉ st.attempt_ids ∨ iid ∉ st.issue_ids) → st2 = st)) ∧
    (∃ st2, link_fix_resolves_issue st fid iid = Except.ok st2 ∧
      (∀ e ∈ st2.resolves, e ∈ st.resolves ∨ (e.1 ∈ st.fix_ids ∧ e.2 ∈ st.issue_ids)) ∧
      ((fid ∉ st.fix_ids ∨ iid ∉ st.issue_ids) → st2 = st)) ∧
    (∃ st2, link_issue_abstracts_to_semantic st iid sid = Except.ok st2 ∧
      (∀ e ∈ st2.abstracts_to, e ∈ st.abstracts_to ∨ (e.1 ∈ st.issue_ids ∧ e.2 ∈ st.semantic_ids)) ∧
      ((iid ∉ st.issue_ids ∨ sid ∉ st.semantic_ids) → st2 = st)) := by
  refine ⟨⟨_, rfl, ?_, ?_⟩, ⟨_, rfl, ?_, ?_⟩, ⟨_, rfl, ?_, ?_⟩, ⟨_, rfl, ?_, ?_⟩⟩
  · intro e he
    rcases List.mem_append.mp he with he | he
    · exact Or.inl he
    · exact Or.inr (matchPairs_mem he)
  · intro hmiss
    simp [matchPairs_eq_nil hmiss]
  · intro e he
    rcases List.mem_append.mp he with he | he
    · exact Or.inl he
    · exact Or.inr (matchPairs_mem he)
  · intro hmiss
    simp [matchPairs_eq_nil hmiss]
  · intro e he
    rcases List.mem_append.mp he with he | he
    · exact Or.inl he
    · exact Or.inr (matchPairs_mem he)
  · intro hmiss
    simp [matchPairs_eq_nil hmiss]
  · intro e he
    rcases List.mem_append.mp he with he | he
    · exact Or.inl he
    · exact Or.inr (matchPairs_mem he)
  · intro hmiss
    simp [matchPairs_eq_nil hmiss]

theorem c7_link_no_dangling_but_silent_witness :
    ∃ st2, link_attempt_satisfies_policy c7xSt "a1" "p1" = Except.ok st2 ∧
      (∀ e ∈ st2.satisfies,
        e ∈ c7xSt.satisfies ∨ (e.1 ∈ c7xSt.attempt_ids ∧ e.2 ∈ c7xSt.policy_ids)) ∧
      (("a1" ∉ c7xSt.attempt_ids ∨ "p1" ∉ c7xSt.policy_ids) → st2 = c7xSt) :=
  (c7_link_no_dangling_but_silent c7xSt "a1" "p1" "i1" "f1" "s1").1

theorem patternLE_eq_true_iff {a b : PatternRow} :
    patternLE a b = true ↔
      (b.frequency < a.frequency ∨
        (a.frequency = b.frequency ∧ b.avg_similarity ≤ a.avg_similarity)) := by
  simp [patternLE, Bool.or_eq_true, Bool.and_eq_true, decide_eq_true_eq, beq_iff_eq]

theorem patternLE_trans (x y z : PatternRow)
    (hxy : patternLE x y = true) (hyz : patternLE y z = true) :
    patternLE x z = true := by
  rw [patternLE_eq_true_iff] at *
  rcases hxy with h1 | ⟨h1, h2⟩ <;> rcases hyz with h3 | ⟨h3, h4⟩
  · left; omega
  · left; omega
  · left; omega
  · right; exact ⟨h1.trans h3, le_trans h4 h2⟩

theorem patternLE_total (x y : PatternRow) :
    patternLE x y = true ∨ patternLE y x = true := by
  rw [patternLE_eq_true_iff, patternLE_eq_true_iff]
  rcases Nat.lt_trichotomy x.frequency y.frequency with h | h | h
  · right; left; exact h
  · rcases le_total x.avg_similarity y.avg_similarity with ha | ha
    · right; right; exact ⟨h.symm, ha⟩
    · left; right; exact ⟨h, ha⟩
  · left; left; exact h

theorem mem_find_semantic_patterns_elim
    {q : Embedding → Nat → List IssueHit} {g : Graph} {v : Embedding} {k : Nat}
    {r : PatternRow} (hr : r ∈ find_semantic_patterns q g v k) :
    ∃ s, s ∈ (patternRows g (survIssues (q v (k * 3)))).map (fun x => x.2) ∧
      r = groupPattern (patternRows g (survIssues (q v (k * 3)))) s := by
  simp only [find_semantic_patterns] at hr
  have h1 := List.mem_of_mem_take hr
  have h2 := mem_sortLe.mp h1
  obtain ⟨s, hs, hgs⟩ := List.mem_map.mp h2
  exact ⟨s, List.mem_dedup.mp hs, hgs.symm⟩

theorem mem_patternRows_snd_elim {g : Graph} {surv : List IssueHit} {s : SemNode}
    (h : s ∈ (patternRows g surv).map (fun x => x.2)) :
    ∃ c ∈ surv, (c.id, s.id) ∈ g.abstracts_to ∧
      g.semanticNodes.find? (fun n => n.id == s.id) = some s := by
  obtain ⟨row, hrow, hsnd⟩ := List.mem_map.mp h
  simp only [patternRows, List.mem_flatMap, List.mem_filterMap, List.mem_filter] at hrow
  obtain ⟨c, hc, e, ⟨he, he1⟩, hfe⟩ := hrow
  rw [Option.map_eq_some'] at hfe
  obtain ⟨n, hn, hrow_eq⟩ := hfe
  have hns : n = s := by
    rw [← hrow_eq] at hsnd
    exact hsnd
  subst hns
  have hpred := List.find?_some hn
  have he2 : e.2 = n.id := (beq_iff_eq.mp hpred).symm
  have he1' : e.1 = c.id := beq_iff_eq.mp he1
  refine ⟨c, hc, ?_, ?_⟩
  · have heq : e = (c.id, n.id) := Prod.ext_iff.mpr ⟨he1', he2⟩
    rw [← heq]
    exact he
  · rw [← he2]
    exact hn

/-- C4: every pattern returned by `find_semantic_patterns` has at least one
contributing issue candidate that passed the 0.85 floor (the floor is applied
before the ABSTRACTS_TO traversal), so no returned semantic has all of its
contributing issues scored below 0.85. -/
theorem c4_find_semantic_patterns_floor
    (q : Embedding → Nat → List IssueHit) (g : Graph) (v : Embedding) (k : Nat) :
    ∀ r ∈ find_semantic_patterns q g v k,
      ∃ c ∈ q v (k * 3), (85 : ℚ) / 100 ≤ c.score ∧ (c.id, r.id) ∈ g.abstracts_to := by
  intro r hr
  obtain ⟨s, hs, hrs⟩ := mem_find_semantic_patterns_elim hr
  obtain ⟨c, hc, hedge, _⟩ := mem_patternRows_snd_elim hs
  rw [survIssues] at hc
  have hc2 := List.mem_filter.mp hc
  refine ⟨c, hc2.1, of_decide_eq_true hc2.2, ?_⟩
  have hid : r.id = s.id := by rw [hrs]; rfl
  rw [hid]
  exact hedge

def c4wQ : Embedding → Nat → List IssueHit :=
  fun _ _ => [{ id := "i1", description := "d", score := 9 / 10 }]

def c4wG : Graph :=
  { issues := [],
    semanticNodes := [{ id := "s1", name := "SQL Injection Vulnerability", description := "d" }],
    causes := [],
    abstracts_to := [("i1", "s1")] }

theorem c4_find_semantic_patterns_floor_witness :
    ∃ c ∈ c4wQ [1] (1 * 3), (85 : ℚ) / 100 ≤ c.score ∧
      (c.id,
        (groupPattern (patternRows c4wG (survIssues (c4wQ [1] (1 * 3))))
          { id := "s1", name := "SQL Injection Vulnerability", description := "d" }).id)
        ∈ c4wG.abstracts_to :=
  c4_find_semantic_patterns_floor c4wQ c4wG [1] 1
    (groupPattern (patternRows c4wG (survIssues (c4wQ [1] (1 * 3))))
      { id := "s1", name := "SQL Injection Vulnerability", description := "d" })
    (by norm_num [find_semantic_patterns, survIssues, patternRows, sortLe, insertLe,
      c4wQ, c4wG])

theorem filter_group_inner {nodes : List SemNode} {s : SemNode}
    (hFind : nodes.find? (fun n => n.id == s.id) = some s) (c : IssueHit) :
    ∀ edges : List (String × String), edges.Nodup →
      ((((edges.filter (fun e => e.1 == c.id)).filterMap
          (fun e => (nodes.find? (fun n => n.id == e.2)).map (fun n => (c, n)))).filter
          (fun r => decide (r.2 = s))).map (fun r => r.1))
        = if (c.id, s.id) ∈ edges then [c] else [] := by
  intro edges
  induction edges with
  | nil => intro _; rfl
  | cons e es ih =>
    intro hnd
    obtain ⟨hne, hnd2⟩ := List.nodup_cons.mp hnd
    by_cases h1 : e.1 = c.id
    · by_cases h2 : e.2 = s.id
      · have he : e = (c.id, s.id) := Prod.ext_iff.mpr ⟨h1, h2⟩
        have hmem : (c.id, s.id) ∈ e :: es := by
          rw [← he]
          exact List.mem_cons_self e es
        have hnot : (c.id, s.id) ∉ es := by
          rw [← he]
          exact hne
        have hfe : (nodes.find? (fun n => n.id == e.2)).map (fun n => (c, n))
            = some (c, s) := by
          rw [h2, hFind]
          rfl
        rw [if_pos hmem]
        rw [List.filter_cons_of_pos (by simp [h1])]
        rw [List.filterMap_cons, hfe]
        rw [List.filter_cons_of_pos (by simp)]
        rw [List.map_cons]
        rw [ih hnd2, if_neg hnot]
      · -- the edge leaves c but reaches a different semantic id
        rw [List.filter_cons_of_pos (by simp [h1])]
        rw [List.filterMap_cons]
        have hne2 : (c.id, s.id) ≠ e := by
          intro hcon
          exact h2 (by rw [← hcon])
        have hiff : ((c.id, s.id) ∈ e :: es) ↔ ((c.id, s.id) ∈ es) := by
          rw [List.mem_cons]
          exact or_iff_right hne2
        cases hf : nodes.find? (fun n => n.id == e.2) with
        | none =>
          simp only [Option.map_none']
          rw [ih hnd2]
          by_cases hm : (c.id, s.id) ∈ es
          · rw [if_pos hm, if_pos (hiff.mpr hm)]
          · rw [if_neg hm, if_neg (fun hx => hm (hiff.mp hx))]
        | some n =>
          have hpred2 := List.find?_some hf
          have hnid : n.id = e.2 := beq_iff_eq.mp hpred2
          have hns : n ≠ s := by
            intro hcon
            rw [hcon] at hnid
            exact h2 hnid.symm
          simp only [Option.map_some']
          rw [List.filter_cons_of_neg (by simp [hns])]
          rw [ih hnd2]
          by_cases hm : (c.id, s.id) ∈ es
          · rw [if_pos hm, if_pos (hiff.mpr hm)]
          · rw [if_neg hm, if_neg (fun hx => hm (hiff.mp hx))]
    · -- the edge does not leave c
      rw [List.filter_cons_of_neg (by simp [h1])]
      have hne2 : (c.id, s.id) ≠ e := by
        intro hcon
        exact h1 (by rw [← hcon])
      have hiff : ((c.id, s.id) ∈ e :: es) ↔ ((c.id, s.id) ∈ es) := by
        rw [List.mem_cons]
        exact or_iff_right hne2
      rw [ih hnd2]
      by_cases hm : (c.id, s.id) ∈ es
      · rw [if_pos hm, if_pos (hiff.mpr hm)]
      · rw [if_neg hm, if_neg (fun hx => hm (hiff.mp hx))]

theorem rows_filter_map_fst {g : Graph} {s : SemNode}
    (hE : g.abstracts_to.Nodup)
    (hFind : g.semanticNodes.find? (fun n => n.id == s.id) = some s) :
    ∀ surv : List IssueHit,
      (((patternRows g surv).filter (fun r => decide (r.2 = s))).map (fun r => r.1))
        = surv.filter (fun c => decide ((c.id, s.id) ∈ g.abstracts_to)) := by
  intro surv
  induction surv with
  | nil => rfl
  | cons c cs ih =>
    simp only [patternRows, List.flatMap_cons, List.filter_append, List.map_append]
    have hinner := filter_group_inner hFind c g.abstracts_to hE
    rw [hinner]
    simp only [patternRows] at ih
    rw [ih]
    rw [List.filter_cons]
    by_cases hm : (c.id, s.id) ∈ g.abstracts_to
    · rw [if_pos hm]
      simp [hm]
    · rw [if_neg hm]
      simp [hm]

/-- C5: assuming the store's edge list holds no duplicate ABSTRACTS_TO edge and
the issue index returns each issue at most once, `find_semantic_patterns` returns
at most `k` rows, ordered by frequency descending with ties broken by average
similarity descending, and each returned row's `frequency` is the number of
distinct surviving issues contributing to its semantic while `avg_similarity` is
the mean of those issues' scores. -/
theorem c5_find_semantic_patterns_ranking
    (q : Embedding → Nat → List IssueHit) (g : Graph) (v : Embedding) (k : Nat)
    (hE : g.abstracts_to.Nodup)
    (hC : ((q v (k * 3)).map (fun c => c.id)).Nodup) :
    (find_semantic_patterns q g v k).length ≤ k ∧
    (find_semantic_patterns q g v k).Pairwise (fun a b =>
      b.frequency < a.frequency ∨
        (a.frequency = b.frequency ∧ b.avg_similarity ≤ a.avg_similarity)) ∧
    ∀ r ∈ find_semantic_patterns q g v k,
      r.frequency = (contributingIssues q g v k r.id).length ∧
      r.avg_similarity =
        ((contributingIssues q g v k r.id).map (fun c => c.score)).sum /
          ((contributingIssues q g v k r.id).length : ℚ) ∧
      ((contributingIssues q g v k r.id).map (fun c => c.id)).Nodup := by
  refine ⟨?_, ?_, ?_⟩
  · simp only [find_semantic_patterns]
    rw [List.length_take]
    exact min_le_left _ _
  · simp only [find_semantic_patterns]
    have hp := pairwise_sortLe patternLE_trans patternLE_total
      (((patternRows g (survIssues (q v (k * 3)))).map (fun r => r.2)).dedup.map
        (groupPattern (patternRows g (survIssues (q v (k * 3))))))
    have hp2 := List.Pairwise.sublist (List.take_sublist k _) hp
    exact hp2.imp (fun h => patternLE_eq_true_iff.mp h)
  · intro r hr
    obtain ⟨s, hs, hrs⟩ := mem_find_semantic_patterns_elim hr
    obtain ⟨c0, hc0, hedge0, hFind⟩ := mem_patternRows_snd_elim hs
    have hkey := rows_filter_map_fst hE hFind (survIssues (q v (k * 3)))
    have hid : r.id = s.id := by rw [hrs]; rfl
    have hcontrib : contributingIssues q g v k r.id
        = (survIssues (q v (k * 3))).filter
            (fun c => decide ((c.id, s.id) ∈ g.abstracts_to)) := by
      rw [contributingIssues, hid]
    refine ⟨?_, ?_, ?_⟩
    · rw [hcontrib, ← hkey, List.length_map, hrs]
      simp [groupPattern]
    · rw [hcontrib, ← hkey, List.length_map, hrs]
      simp only [groupPattern, List.map_map]
      rfl
    · have h2 : List.Sublist (survIssues (q v (k * 3))) (q v (k * 3)) := by
        simp only [survIssues]
        exact List.filter_sublist _
      have hsub : List.Sublist (contributingIssues q g v k r.id) (q v (k * 3)) := by
        rw [hcontrib]
        exact List.Sublist.trans (List.filter_sublist _) h2
      exact List.Nodup.sublist (List.Sublist.map (fun c => c.id) hsub) hC

theorem c5_find_semantic_patterns_ranking_witness :
    (groupPattern (patternRows c4wG (survIssues (c4wQ [1] (1 * 3))))
        { id := "s1", name := "SQL Injection Vulnerability", description := "d" }).frequency
      = (contributingIssues c4wQ c4wG [1] 1
          (groupPattern (patternRows c4wG (survIssues (c4wQ [1] (1 * 3))))
            { id := "s1", name := "SQL Injection Vulnerability", description := "d" }).id).length :=
  ((c5_find_semantic_patterns_ranking c4wQ c4wG [1] 1 (by decide) (by decide)).2.2
    (groupPattern (patternRows c4wG (survIssues (c4wQ [1] (1 * 3))))
      { id := "s1", name := "SQL Injection Vulnerability", description := "d" })
    (by norm_num [find_semantic_patterns, survIssues, patternRows, sortLe, insertLe,
      c4wQ, c4wG])).1
